import Mathlib

/-!
Verification of the record-state workflow engine of the `colrev` JSON-RPC
layer (`colrev/ui_jsonrpc`).  The Python handlers are shallowly embedded as
executable Lean definitions; theorems below check the natural-language
specification against this embedding.

Conventions:
* Python `dict`s with significant insertion order are embedded as association
  lists (`List (String × α)`), with `assocGet` / `assocSet` mirroring
  `d[k]` / `d[k] = v`.
* A Python function that can `raise` is embedded as a function into `Except`.
  Each distinguished `ValueError` raise site is mapped to a constructor of
  `UIError`, named after the error taxonomy of the specification.
* Filesystem state read by a handler (run-history snapshot files) is passed
  explicitly as a value of type `HistoryState`.
-/

namespace Colrev

/-- Record lifecycle states (`colrev.constants.RecordState`). -/
inductive RecordState where
  | md_retrieved
  | md_imported
  | md_needs_manual_preparation
  | md_prepared
  | md_processed
  | rev_prescreen_excluded
  | rev_prescreen_included
  | pdf_needs_manual_retrieval
  | pdf_imported
  | pdf_not_available
  | pdf_needs_manual_preparation
  | pdf_prepared
  | rev_excluded
  | rev_included
  | rev_synthesized
  deriving DecidableEq, Repr

/-- The `currently` component of `StatusStats`: number of records presently in
each state, as read by the status handler. -/
structure Currently where
  md_retrieved : Nat := 0
  md_imported : Nat := 0
  md_needs_manual_preparation : Nat := 0
  md_prepared : Nat := 0
  md_processed : Nat := 0
  rev_prescreen_included : Nat := 0
  pdf_needs_manual_retrieval : Nat := 0
  pdf_imported : Nat := 0
  pdf_needs_manual_preparation : Nat := 0
  pdf_prepared : Nat := 0
  rev_included : Nat := 0
  deriving DecidableEq, Repr

/-- Search types (`colrev.constants.SearchType`). -/
inductive SearchType where
  | DB | API | BACKWARD | FORWARD | TOC | OTHER | FILES | MD
  deriving DecidableEq, Repr

/-- A configured search source (`ExtendedSearchFile`), restricted to the
fields read by the handlers under verification.  `search_string` and
`search_parameters` are `Option`s because the handlers access them with
`getattr(source, ..., default)` and normalise `None`.  The type of the
parameter mapping is kept abstract (`Params`), compared for structural
equality exactly as Python compares the two dicts. -/
structure SourceCfg (Params : Type) where
  platform : String
  search_results_path : String
  search_type : SearchType
  version : String
  search_string : Option String
  search_parameters : Option Params
  deriving DecidableEq, Repr

/-- The nine pipeline operations (stage-name vocabulary). -/
inductive Op where
  | search | load | prep | dedupe | prescreen | pdf_get | pdf_prep | screen | data
  deriving DecidableEq, Repr

/-- Embedding of `StatusHandler._determine_next_operation`.  The trailing loop over
`self.review_manager.settings.sources` in the source has an empty body
(`pass`), so the `sources` argument does not influence the result; it is kept
here to mirror the source's data flow. -/
def determineNextOperation {Params : Type} (currently : Currently)
    (sources : List (SourceCfg Params)) : Option String :=
  if currently.md_retrieved > 0 then some "load"
  else if currently.md_imported > 0 || currently.md_needs_manual_preparation > 0 then
    some "prep"
  else if currently.md_prepared > 0 then some "dedupe"
  else if currently.md_processed > 0 then some "prescreen"
  else if currently.rev_prescreen_included > 0 || currently.pdf_needs_manual_retrieval > 0 then
    some "pdf_get"
  else if currently.pdf_imported > 0 || currently.pdf_needs_manual_preparation > 0 then
    some "pdf_prep"
  else if currently.pdf_prepared > 0 then some "screen"
  else if currently.rev_included > 0 then some "data"
  else
    -- for source in sources: ... pass  (empty loop body in the source)
    let _ := sources
    none

/-- Embedding of `StatusHandler._check_operation_runnable`: `(can_run, reason, affected_records)`. -/
def checkOperationRunnable {Params : Type} (operation : Op) (currently : Currently)
    (sources : List (SourceCfg Params)) : Bool × Option String × Nat :=
  match operation with
  | .search =>
      if sources.isEmpty then (false, some "No search sources configured", 0)
      else (true, none, sources.length)
  | .load =>
      let affected := currently.md_retrieved
      if affected = 0 then (false, some "No records to load (run search first)", 0)
      else (true, none, affected)
  | .prep =>
      let affected := currently.md_imported + currently.md_needs_manual_preparation
      if affected = 0 then (false, some "No records to prepare (run load first)", 0)
      else (true, none, affected)
  | .dedupe =>
      let affected := currently.md_prepared
      if affected = 0 then (false, some "No records to deduplicate (run prep first)", 0)
      else (true, none, affected)
  | .prescreen =>
      let affected := currently.md_processed
      if affected = 0 then (false, some "No records to prescreen (run dedupe first)", 0)
      else (true, none, affected)
  | .pdf_get =>
      let affected := currently.rev_prescreen_included + currently.pdf_needs_manual_retrieval
      if affected = 0 then
        (false, some "No records need PDF retrieval (run prescreen first)", 0)
      else (true, none, affected)
  | .pdf_prep =>
      let affected := currently.pdf_imported + currently.pdf_needs_manual_preparation
      if affected = 0 then (false, some "No PDFs to prepare (run pdf_get first)", 0)
      else (true, none, affected)
  | .screen =>
      let affected := currently.pdf_prepared
      if affected = 0 then (false, some "No records to screen (run pdf_prep first)", 0)
      else (true, none, affected)
  | .data =>
      let affected := currently.rev_included
      if affected = 0 then (false, some "No records for data extraction (run screen first)", 0)
      else (true, none, affected)

/-- Embedding of `OPERATION_INPUT_STATES`: operation name → the state it processes
(`None` for `search`). -/
def operationInputStates : Op → Option RecordState
  | .search => none
  | .load => some .md_retrieved
  | .prep => some .md_imported
  | .dedupe => some .md_prepared
  | .prescreen => some .md_processed
  | .pdf_get => some .rev_prescreen_included
  | .pdf_prep => some .pdf_imported
  | .screen => some .pdf_prepared
  | .data => some .rev_included

/-- The `state_counts` mapping built inside `_check_needs_rerun`
(input state → count, with the manual-intervention states folded in). -/
def stateCounts (currently : Currently) : RecordState → Nat
  | .md_retrieved => currently.md_retrieved
  | .md_imported => currently.md_imported + currently.md_needs_manual_preparation
  | .md_prepared => currently.md_prepared
  | .md_processed => currently.md_processed
  | .rev_prescreen_included =>
      currently.rev_prescreen_included + currently.pdf_needs_manual_retrieval
  | .pdf_imported => currently.pdf_imported + currently.pdf_needs_manual_preparation
  | .pdf_prepared => currently.pdf_prepared
  | .rev_included => currently.rev_included
  | _ => 0  -- state_counts.get(input_state, 0)

/-- Persisted run-history snapshot of a source (the JSON file written by
`_save_source_history`): the source configuration minus the self-referential
`search_history_path` field, plus a `last_run` timestamp. -/
structure History (Params : Type) where
  platform : String
  search_results_path : String
  search_type : SearchType
  version : String
  search_string : Option String
  search_parameters : Option Params
  last_run : String
  deriving DecidableEq, Repr

/-- State of a source's run-history snapshot file as seen by the handlers:
the file may be absent, present but unreadable (raising `JSONDecodeError` /
`OSError` on read), or readable with parsed contents. -/
inductive HistoryState (Params : Type) where
  | absent
  | unreadable
  | parsed (h : History Params)
  deriving DecidableEq, Repr

/-- Embedding of `StatusHandler._source_settings_changed`: compare current source settings
with the saved history dict. -/
def sourceSettingsChanged {Params : Type} [DecidableEq Params]
    (source : SourceCfg Params) (history : History Params) : Bool :=
  let current_query := source.search_string.getD ""
  let history_query := history.search_string.getD ""
  if current_query ≠ history_query then true
  else
    let current_params := source.search_parameters
    let history_params := history.search_parameters
    -- `{} or {}` on both sides: a `None` mapping and an absent key both
    -- normalise to the empty dict, compared structurally.
    if current_params ≠ history_params then true
    else false

/-- Embedding of `StatusHandler._check_search_needs_rerun`: `(needs_rerun, reason)` for the
search operation, given the snapshot state of each source's history file. -/
def checkSearchNeedsRerun {Params : Type} [DecidableEq Params]
    (sources : List (SourceCfg Params))
    (fs : SourceCfg Params → HistoryState Params) : Bool × Option String :=
  if sources.isEmpty then (false, none)
  else
    let modified_sources := sources.filterMap fun source =>
      match fs source with
      | .absent => some source.platform
      | .unreadable => some source.platform
      | .parsed history =>
          if sourceSettingsChanged source history then some source.platform else none
    match modified_sources with
    | [] => (false, none)
    | [only] => (true, some (only ++ " settings modified since last run"))
    | more =>
        (true, some (toString more.length ++ " sources modified since last run"))

/-- Embedding of `StatusHandler._check_needs_rerun`: `(needs_rerun, reason)`. -/
def checkNeedsRerun {Params : Type} [DecidableEq Params] (operation : Op)
    (currently : Currently) (sources : List (SourceCfg Params))
    (fs : SourceCfg Params → HistoryState Params) : Bool × Option String :=
  match operation with
  | .search => checkSearchNeedsRerun sources fs
  | _ =>
    match operationInputStates operation with
    | none => (false, none)
    | some input_state =>
        let count := stateCounts currently input_state
        if count > 0 then
          (true, some (toString count ++ " record(s) pending for " ++ opName operation))
        else (false, none)
where
  /-- The stage-name token of an operation (used in the rerun reason string). -/
  opName : Op → String
  | .search => "search" | .load => "load" | .prep => "prep" | .dedupe => "dedupe"
  | .prescreen => "prescreen" | .pdf_get => "pdf_get" | .pdf_prep => "pdf_prep"
  | .screen => "screen" | .data => "data"

/-- Embedding of `SearchHandler._check_source_staleness`: `(is_stale, stale_reason)` for one
source, given the state of its run-history snapshot file. -/
def checkSourceStaleness {Params : Type} [DecidableEq Params]
    (source : SourceCfg Params) (historyFile : HistoryState Params) :
    Bool × Option String :=
  match historyFile with
  | .absent => (true, some "Search has not been run")
  | .unreadable =>
      -- except (json.JSONDecodeError, OSError)
      (true, some "Unable to read search history")
  | .parsed history =>
      let current_query := source.search_string.getD ""
      let history_query := history.search_string.getD ""
      if current_query ≠ history_query then (true, some "Search query changed")
      else if source.search_parameters ≠ history.search_parameters then
        (true, some "Search parameters changed")
      else (false, none)

/-- The history dict built by `SearchHandler._save_source_history`:
`source.to_dict()` with the self-referential `search_history_path` key popped
and a `last_run` timestamp added.  `ExtendedSearchFile.to_dict` itself is not
part of the repository snapshot; its field-for-field echo of the source
configuration follows the run-history file format of the specification. -/
def mkHistory {Params : Type} (source : SourceCfg Params) (last_run : String) :
    History Params :=
  { platform := source.platform
    search_results_path := source.search_results_path
    search_type := source.search_type
    version := source.version
    search_string := source.search_string
    search_parameters := source.search_parameters
    last_run := last_run }

/-- Embedding of `SearchHandler._save_source_history`: overwrites whatever snapshot state
the history file was in with a freshly built history dict.  `run_date` is the
optional explicit timestamp; `now` stands for `datetime.now(...)`. -/
def saveSourceHistory {Params : Type} (_prior : HistoryState Params)
    (source : SourceCfg Params) (run_date : Option String) (now : String) :
    HistoryState Params :=
  .parsed (mkHistory source (match run_date with | some d => d | none => now))

/-- A `Currently` snapshot with every count zero. -/
def zeroCurrently : Currently := {}

/-- A concrete configured source whose search has not been run
(no run-history snapshot).  Parameters instantiated with string→string maps. -/
def src0 : SourceCfg (List (String × String)) :=
  { platform := "colrev.crossref"
    search_results_path := "data/search/crossref.bib"
    search_type := .API
    version := "1.0"
    search_string := some "cancer"
    search_parameters := none }

/-- Sum of the declared input-state counts of a stage, written from the
specification's stage → input-state table (§4.3): `prep` accepts
`md_imported` + `md_needs_manual_preparation`, `pdf_get` accepts
`rev_prescreen_included` + `pdf_needs_manual_retrieval`, `pdf_prep` accepts
`pdf_imported` + `pdf_needs_manual_preparation`; the remaining stages accept a
single state. -/
def specInputSum (operation : Op) (c : Currently) : Nat :=
  match operation with
  | .search => 0
  | .load => c.md_retrieved
  | .prep => c.md_imported + c.md_needs_manual_preparation
  | .dedupe => c.md_prepared
  | .prescreen => c.md_processed
  | .pdf_get => c.rev_prescreen_included + c.pdf_needs_manual_retrieval
  | .pdf_prep => c.pdf_imported + c.pdf_needs_manual_preparation
  | .screen => c.pdf_prepared
  | .data => c.rev_included

/-- The stage-specific "cannot run" reason of each non-search stage. -/
def stageReason (operation : Op) : String :=
  match operation with
  | .search => "No search sources configured"
  | .load => "No records to load (run search first)"
  | .prep => "No records to prepare (run load first)"
  | .dedupe => "No records to deduplicate (run prep first)"
  | .prescreen => "No records to prescreen (run dedupe first)"
  | .pdf_get => "No records need PDF retrieval (run prescreen first)"
  | .pdf_prep => "No PDFs to prepare (run pdf_get first)"
  | .screen => "No records to screen (run pdf_prep first)"
  | .data => "No records for data extraction (run screen first)"

/-- Lookup in an association list, mirroring Python `d.get(k)` /
`d[k]` on an insertion-ordered dict. -/
def assocGet {α : Type} : List (String × α) → String → Option α
  | [], _ => none
  | kv :: rest, k => if kv.1 = k then some kv.2 else assocGet rest k

/-- Update in an association list, mirroring Python `d[k] = v`: replaces the
value in place if the key is present, appends otherwise. -/
def assocSet {α : Type} : List (String × α) → String → α → List (String × α)
  | [], k, v => [(k, v)]
  | kv :: rest, k, v => if kv.1 = k then (k, v) :: rest else kv :: assocSet rest k v

/-- Per-field provenance entry (`{source: ..., note: ...}`). -/
structure Prov where
  source : String
  note : String
  deriving DecidableEq, Repr

/-- A record as handled by the JSON-RPC layer: the special keys of the record
dict (`colrev_status`, `colrev_origin`, the two provenance maps) are fields of
the structure, all remaining bibliographic keys live in `fields`. -/
structure PyRecord where
  status : RecordState
  origin : List String
  mdProv : List (String × Prov)
  dProv : List (String × Prov)
  fields : List (String × String)
  deriving DecidableEq, Repr

/-- The record store (`records_dict`): record id → record. -/
abbrev RecordsDict := List (String × PyRecord)

/-- Modelled from the spec: the field-name constants of `colrev.constants.Fields`
(that module is not part of the repository snapshot).  The specification names
the protected fields `id`, `origin`, `masterdata_provenance`,
`data_provenance`; `ENTRYTYPE`, `colrev_status` and `abstract` are the further
keys the handlers treat specially. -/
def ID_KEY : String := "id"

/-- Key of the origin list (see `ID_KEY`). -/
def ORIGIN_KEY : String := "origin"

/-- Key of the masterdata-provenance map (see `ID_KEY`). -/
def MD_PROV_KEY : String := "masterdata_provenance"

/-- Key of the data-provenance map (see `ID_KEY`). -/
def D_PROV_KEY : String := "data_provenance"

/-- Key of the entry type (see `ID_KEY`). -/
def ENTRYTYPE_KEY : String := "ENTRYTYPE"

/-- Key of the record status (see `ID_KEY`). -/
def STATUS_KEY : String := "colrev_status"

/-- Key of the abstract field (see `ID_KEY`). -/
def ABSTRACT_KEY : String := "abstract"

/-- The set of protected fields checked by `update_record` and
`prep_man_update_record`. -/
def protectedFields : List String := [ID_KEY, ORIGIN_KEY, MD_PROV_KEY, D_PROV_KEY]

/-- Errors raised by the handlers.  Each constructor corresponds to a
distinguished `ValueError` raise site, named after the error taxonomy of the
specification (§7). -/
inductive UIError where
  /-- Missing or malformed required input. -/
  | InvalidParameter (msg : String)
  /-- Referenced record id absent from the record set. -/
  | RecordNotFound (id : String)
  /-- Attempt to write a protected field
  ("Cannot update protected field: ..."). -/
  | ProtectedFieldError
  /-- Record not in the state required by the operation
  ("Record ... is not in ... state"). -/
  | InvalidTransition (id : String)
  deriving DecidableEq, Repr

/-- Parse a status name, mirroring `RecordState[value]` on a string. -/
def RecordState.ofString? : String → Option RecordState
  | "md_retrieved" => some .md_retrieved
  | "md_imported" => some .md_imported
  | "md_needs_manual_preparation" => some .md_needs_manual_preparation
  | "md_prepared" => some .md_prepared
  | "md_processed" => some .md_processed
  | "rev_prescreen_excluded" => some .rev_prescreen_excluded
  | "rev_prescreen_included" => some .rev_prescreen_included
  | "pdf_needs_manual_retrieval" => some .pdf_needs_manual_retrieval
  | "pdf_imported" => some .pdf_imported
  | "pdf_not_available" => some .pdf_not_available
  | "pdf_needs_manual_preparation" => some .pdf_needs_manual_preparation
  | "pdf_prepared" => some .pdf_prepared
  | "rev_excluded" => some .rev_excluded
  | "rev_included" => some .rev_included
  | "rev_synthesized" => some .rev_synthesized
  | _ => none

/-- The field-update loop of `update_record`: `record_dict[field] = value`,
with the status key converted through the `RecordState` enum (an unknown
status name raises). -/
def applyGenericUpdates : PyRecord → List (String × String) → Except UIError PyRecord
  | r, [] => .ok r
  | r, (k, v) :: rest =>
      if k = STATUS_KEY then
        match RecordState.ofString? v with
        | none => .error (.InvalidParameter ("Invalid status value: " ++ v))
        | some st => applyGenericUpdates { r with status := st } rest
      else applyGenericUpdates { r with fields := assocSet r.fields k v } rest

/-- Embedding of `RecordsHandler.update_record`.  Returns the record store
after the call, the list of commit messages created, and the response or
error.  The protected-field check runs after the record lookup and before any
field is written; on any error the store is returned unchanged and no commit
is created. -/
def updateRecord (store : RecordsDict) (record_id : String)
    (updates : List (String × String)) :
    RecordsDict × List String × Except UIError (List String) :=
  if record_id = "" then
    (store, [], .error (.InvalidParameter "record_id parameter is required"))
  else if updates.isEmpty then
    (store, [], .error (.InvalidParameter "fields parameter is required"))
  else
    match assocGet store record_id with
    | none => (store, [], .error (.RecordNotFound record_id))
    | some r =>
        if updates.any (fun kv => protectedFields.contains kv.1) then
          (store, [], .error .ProtectedFieldError)
        else
          match applyGenericUpdates r updates with
          | .error e => (store, [], .error e)
          | .ok r' =>
              (assocSet store record_id r',
               ["Update record " ++ record_id],
               .ok (updates.map Prod.fst))

/-- Split a character list at commas: embedding of Python `note.split(",")`. -/
def splitCommaAux : List Char → List Char → List (List Char)
  | [], acc => [acc.reverse]
  | c :: cs, acc =>
      if c = ',' then acc.reverse :: splitCommaAux cs []
      else splitCommaAux cs (c :: acc)

/-- Strip leading and trailing whitespace: embedding of Python `str.strip()`. -/
def stripChars (l : List Char) : List Char :=
  ((l.dropWhile Char.isWhitespace).reverse.dropWhile Char.isWhitespace).reverse

/-- Boolean string-prefix test: embedding of Python `str.startswith`. -/
def pyStartsWith (s p : String) : Bool :=
  p.data.isPrefixOf s.data

/-- Trimmed defect codes of a provenance note that are not prefixed
`IGNORE:` (the comprehension inside `_extract_defects`). -/
def noteCodes (note : String) : List String :=
  ((splitCommaAux note.data []).map (fun cs => String.mk (stripChars cs))).filter
    (fun c => !(c == "") && !(pyStartsWith c "IGNORE:"))

/-- Embedding of `PrepManHandler._extract_defects`: per-field defect codes
from the masterdata provenance, excluding `IGNORE:`-prefixed codes. -/
def extractDefects (r : PyRecord) : List (String × List String) :=
  r.mdProv.filterMap fun fp =>
    if fp.2.note ≠ "" then
      if noteCodes fp.2.note ≠ [] then some (fp.1, noteCodes fp.2.note) else none
    else none

/-- Modelled from the spec: `Record.has_fatal_quality_defects` (module
`colrev.record` is not part of the repository snapshot) is true iff any
field's masterdata-provenance note contains a defect code not prefixed
`IGNORE:` (spec §4.5). -/
def hasFatalQualityDefects (r : PyRecord) : Bool :=
  r.mdProv.any fun fp => !(noteCodes fp.2.note).isEmpty

/-- Modelled from the spec: `PrepRecord.update_field` (module
`colrev.record.record_prep` is not part of the repository snapshot).  A
tracked field update sets the field value and replaces the field's
masterdata-provenance entry with `{source: <actor>, note: ""}` (spec §4.5). -/
def updateField (r : PyRecord) (key value source : String) : PyRecord :=
  { r with
    fields := assocSet r.fields key value
    mdProv := assocSet r.mdProv key ⟨source, ""⟩ }

/-- The field-update loop of `prep_man_update_record`: `ENTRYTYPE` is written
raw, every other field goes through the tracked `update_field` with source
"prep_man|ui" and empty note. -/
def applyPrepManUpdates : PyRecord → List (String × String) → PyRecord
  | r, [] => r
  | r, kv :: rest =>
      if kv.1 = ENTRYTYPE_KEY then
        applyPrepManUpdates { r with fields := assocSet r.fields ENTRYTYPE_KEY kv.2 } rest
      else applyPrepManUpdates (updateField r kv.1 kv.2 "prep_man|ui") rest

/-- Modelled from the spec: `prep_man.set_data` (module `colrev.ops.prep_man`
is not part of the repository snapshot) transitions a manually prepared record
to `md_prepared` (spec §8, manual-prep gate). -/
def prepManSetData (r : PyRecord) : PyRecord := { r with status := .md_prepared }

/-- Response of `prep_man_update_record`: the `new_status` and
`remaining_defects` entries of the `details` dict. -/
structure PrepManResponse where
  new_status : RecordState
  remaining_defects : List (String × List String)
  deriving DecidableEq, Repr

/-- Embedding of `PrepManHandler.prep_man_update_record`.  Returns the record
store after the call, the commit messages created, and the response or error.
The protected-field check precedes the record lookup; the record must be in
`md_needs_manual_preparation`; after the updates the record transitions to
`md_prepared` only when no fatal quality defect remains. -/
def prepManUpdateRecord (store : RecordsDict) (record_id : String)
    (updates : List (String × String)) :
    RecordsDict × List String × Except UIError PrepManResponse :=
  if record_id = "" then
    (store, [], .error (.InvalidParameter "record_id parameter is required"))
  else if updates.isEmpty then
    (store, [], .error (.InvalidParameter "fields parameter is required"))
  else if updates.any (fun kv => protectedFields.contains kv.1) then
    (store, [], .error .ProtectedFieldError)
  else
    match assocGet store record_id with
    | none => (store, [], .error (.RecordNotFound record_id))
    | some r =>
        if r.status ≠ .md_needs_manual_preparation then
          (store, [], .error (.InvalidTransition record_id))
        else
          if !(hasFatalQualityDefects (applyPrepManUpdates r updates)) then
            (assocSet store record_id (prepManSetData (applyPrepManUpdates r updates)),
             ["Manual prep: " ++ record_id ++ " → md_prepared"],
             .ok ⟨.md_prepared, []⟩)
          else
            (assocSet store record_id (applyPrepManUpdates r updates),
             ["Manual prep (partial): " ++ record_id],
             .ok ⟨.md_needs_manual_preparation, extractDefects (applyPrepManUpdates r updates)⟩)

/-- Modelled from the spec: `PDFGetMan.pdf_get_man_record` with
`filepath=None` (module `colrev.ops.pdf_get_man` is not part of the
repository snapshot) records the explicit "not available" decision by setting
the record's status to `pdf_not_available` (spec §8, scenario 4). -/
def pdfGetManMarkNotAvailable (r : PyRecord) : PyRecord :=
  { r with status := .pdf_not_available }

/-- Embedding of `PDFGetHandler.mark_pdf_not_available`.  Returns the record
store after the call, the commit messages created, and the new status or
error.  The record must currently be in `pdf_needs_manual_retrieval`. -/
def markPdfNotAvailable (store : RecordsDict) (record_id : String) :
    RecordsDict × List String × Except UIError RecordState :=
  if record_id = "" then
    (store, [], .error (.InvalidParameter "record_id parameter is required"))
  else
    match assocGet store record_id with
    | none => (store, [], .error (.RecordNotFound record_id))
    | some r =>
        if r.status ≠ .pdf_needs_manual_retrieval then
          (store, [], .error (.InvalidTransition record_id))
        else
          (assocSet store record_id (pdfGetManMarkNotAvailable r),
           ["Mark PDF not available for " ++ record_id],
           .ok (pdfGetManMarkNotAvailable r).status)

/-- A record with two defective fields, used to instantiate the
manual-preparation claims. -/
def rDefective : PyRecord :=
  { status := .md_needs_manual_preparation
    origin := ["crossref.bib/000001"]
    mdProv := [("title", ⟨"crossref", "record-not-in-toc"⟩),
               ("author", ⟨"crossref", "mostly-all-caps"⟩)]
    dProv := []
    fields := [("title", "old title"), ("author", "SMITH, J")] }

/-- A one-record store holding `rDefective` under id "r1". -/
def demoStore : RecordsDict := [("r1", rDefective)]

/-- A record awaiting manual PDF retrieval. -/
def rPdfWaiting : PyRecord :=
  { status := .pdf_needs_manual_retrieval
    origin := ["pubmed.bib/000002"]
    mdProv := []
    dProv := []
    fields := [("title", "Some Article")] }

/-- A one-record store holding `rPdfWaiting` under id "r2". -/
def pdfStore : RecordsDict := [("r2", rPdfWaiting)]

/-- Outcome dict returned by `_enrich_single_record`: success flag, enriched
fields, API source used, and the full record data for saving. -/
structure EnrichOutcome where
  success : Bool
  enriched_fields : List String
  source : Option String
  record_data : PyRecord
  deriving DecidableEq, Repr

/-- Per-item entry appended to the `results` list of `batch_enrich_records`:
a missing id yields an error entry ("Record not found"), a record whose
abstract is already present is reported successful with no enriched fields, a
processed record carries the enrichment outcome, and a per-item exception
yields an error entry with the exception text. -/
inductive ItemResult where
  | notFound (id : String)
  | alreadyHasAbstract (id : String)
  | processed (id : String) (success : Bool) (enriched_fields : List String)
      (source : Option String) (record_data : PyRecord)
  | errored (id : String) (msg : String)
  deriving DecidableEq, Repr

/-- Enrichment of one record either returns a result dict or raises; the
collaborator (`_enrich_single_record` calling the Crossref/PubMed connectors)
is abstracted as an oracle, since the batch loop treats it as a black box and
catches any exception per item. -/
abbrev EnrichOracle := PyRecord → Except String EnrichOutcome

/-- Truthiness of `Fields.ABSTRACT in record_dict and record_dict[Fields.ABSTRACT]`. -/
def hasAbstract (r : PyRecord) : Bool :=
  match assocGet r.fields ABSTRACT_KEY with
  | some a => !(a == "")
  | none => false

/-- Accumulator of the `batch_enrich_records` loop. -/
structure BatchAcc where
  enriched_count : Nat
  failed_count : Nat
  results : List ItemResult
  records_to_save : List (String × PyRecord)
  deriving DecidableEq, Repr

/-- One iteration of the loop body of `batch_enrich_records`. -/
def batchEnrichStep (store : RecordsDict) (oracle : EnrichOracle)
    (acc : BatchAcc) (record_id : String) : BatchAcc :=
  match assocGet store record_id with
  | none =>
      { acc with
        failed_count := acc.failed_count + 1
        results := acc.results ++ [.notFound record_id] }
  | some r =>
      if hasAbstract r then
        { acc with results := acc.results ++ [.alreadyHasAbstract record_id] }
      else
        match oracle r with
        | .error msg =>
            { acc with
              failed_count := acc.failed_count + 1
              results := acc.results ++ [.errored record_id msg] }
        | .ok res =>
            if res.success then
              { acc with
                enriched_count := acc.enriched_count + 1
                records_to_save := assocSet acc.records_to_save record_id res.record_data
                results := acc.results ++
                  [.processed record_id res.success res.enriched_fields res.source
                    res.record_data] }
            else
              { acc with
                results := acc.results ++
                  [.processed record_id res.success res.enriched_fields res.source
                    res.record_data] }

/-- Embedding of `save_records_dict(records_to_save, partial=True)`: only the
supplied records are touched. -/
def saveRecordsDict (store : RecordsDict) (upds : List (String × PyRecord)) :
    RecordsDict :=
  upds.foldl (fun st kv => assocSet st kv.1 kv.2) store

/-- Embedding of `PrescreenHandler.batch_enrich_records`: an empty id list
raises; otherwise the loop runs over all ids and the collected
`records_to_save` are saved at once at the end. -/
def batchEnrichRecords (ids : List String) (store : RecordsDict)
    (oracle : EnrichOracle) : Except UIError (BatchAcc × RecordsDict) :=
  if ids.isEmpty then
    .error (.InvalidParameter "record_ids parameter is required and must not be empty")
  else
    .ok (ids.foldl (batchEnrichStep store oracle) ⟨0, 0, [], []⟩,
      saveRecordsDict store
        (ids.foldl (batchEnrichStep store oracle) ⟨0, 0, [], []⟩).records_to_save)

/-- Classification of one id by the batch loop, as a function of the store and
oracle alone (independent of any other id in the batch). -/
def classifyItem (store : RecordsDict) (oracle : EnrichOracle)
    (record_id : String) : ItemResult :=
  match assocGet store record_id with
  | none => .notFound record_id
  | some r =>
      if hasAbstract r then .alreadyHasAbstract record_id
      else
        match oracle r with
        | .error msg => .errored record_id msg
        | .ok res =>
            .processed record_id res.success res.enriched_fields res.source
              res.record_data

/-- Items that increment `failed_count`. -/
def itemFailed : ItemResult → Bool
  | .notFound _ => true
  | .errored _ _ => true
  | _ => false

/-- Items that increment `enriched_count`. -/
def itemEnriched : ItemResult → Bool
  | .processed _ s _ _ _ => s
  | _ => false

/-- Missing-record item test. -/
def isNotFoundItem : ItemResult → Bool
  | .notFound _ => true
  | _ => false

/-- Per-item exception test. -/
def isErroredItem : ItemResult → Bool
  | .errored _ _ => true
  | _ => false

/-- The `records_to_save` effect of one id, as a function of the store and
oracle alone. -/
def saveStep (store : RecordsDict) (oracle : EnrichOracle)
    (l : List (String × PyRecord)) (record_id : String) :
    List (String × PyRecord) :=
  match classifyItem store oracle record_id with
  | .processed _ s _ _ d => if s then assocSet l record_id d else l
  | _ => l

/-- A record with no abstract, used for the batch-enrichment witness. -/
def rPlain (t : String) : PyRecord :=
  { status := .md_processed
    origin := []
    mdProv := []
    dProv := []
    fields := [("title", t)] }

/-- A two-record store for the batch-enrichment witness. -/
def enrichStore : RecordsDict := [("a", rPlain "A"), ("b", rPlain "B")]

/-- An oracle that always enriches successfully. -/
def okOracle : EnrichOracle :=
  fun r => .ok ⟨true, ["abstract"], some "crossref", r⟩

/-- Characters kept by `sanitize_project_id`: alphanumeric, hyphen, or
underscore.  The alphanumeric test (Python's Unicode-aware `str.isalnum`) is
passed explicitly; the theorems only assume that the path-relevant characters
'/' and '.' are not alphanumeric, which holds for `str.isalnum`. -/
def keepChar (isalnum : Char → Bool) (c : Char) : Bool :=
  isalnum c || c == '-' || c == '_'

/-- Embedding of `sanitize_project_id`. -/
def sanitizeProjectId (isalnum : Char → Bool) (project_id : String) :
    Except String String :=
  if project_id = "" then .error "project_id is required"
  else if String.mk (project_id.data.filter (keepChar isalnum)) = "" then
    .error "project_id must contain alphanumeric characters"
  else .ok (String.mk (project_id.data.filter (keepChar isalnum)))

/-- Split a character list at a separator. -/
def splitCharAux (sep : Char) : List Char → List Char → List (List Char)
  | [], acc => [acc.reverse]
  | c :: cs, acc =>
      if c = sep then acc.reverse :: splitCharAux sep cs []
      else splitCharAux sep cs (c :: acc)

/-- Components of a POSIX path string, as `pathlib` parses them: empty and
"." segments are dropped, ".." is kept (it is only eliminated by
`resolve()`). -/
def pathComponents (p : String) : List String :=
  ((splitCharAux '/' p.data []).map (fun cs => String.mk cs)).filter
    (fun c => !(c == "") && !(c == "."))

/-- Embedding of `Path.__truediv__` with a string operand: an absolute right
operand replaces the base. -/
def pathJoin (base : List String) (child : String) : List String :=
  if pyStartsWith child "/" then pathComponents child
  else base ++ pathComponents child

/-- Structural model of `Path.resolve`: ".." components pop the previous
component (symlink resolution and cwd-absolutisation are outside the model,
which works relative to the process working directory). -/
def resolveComponents (comps : List String) : List String :=
  comps.foldl (fun acc c => if c = ".." then acc.dropLast else acc ++ [c]) []

/-- Request parameters read by `validate_project_path`. -/
structure PathParams where
  project_id : Option String
  base_path : Option String
  deriving DecidableEq, Repr

/-- Embedding of `validate_project_path`: check `project_id`, sanitize it,
join onto the base path (default "./projects") and resolve. -/
def validateProjectPath (isalnum : Char → Bool) (params : PathParams) :
    Except String (List String) :=
  match params.project_id with
  | none => .error "project_id is required"
  | some pid =>
      if pid = "" then .error "project_id is required"
      else
        match sanitizeProjectId isalnum pid with
        | .error e => .error e
        | .ok s =>
            .ok (resolveComponents
              (pathJoin (pathComponents ((params.base_path).getD "./projects")) s))

/-- C1: the code never recommends `"search"`.  With every `currently` count
zero and one configured source that has no run-history snapshot, the claim
requires `next_operation = "search"`, but `_determine_next_operation` returns
`None`: its loop over sources has an empty body. -/
theorem determine_next_operation_ignores_unsearched_sources :
    determineNextOperation zeroCurrently [src0] = none := by
  rfl

/-- C4: `_check_operation_runnable` — for `search`, runnable iff at least one
source is configured, with `affected_records` the number of sources; for every
other stage, runnable with `affected_records` equal to the sum of its declared
input-state counts iff that sum is positive, and otherwise not runnable with
the stage-specific reason and 0 affected records. -/
theorem check_operation_runnable_spec {Params : Type} (operation : Op)
    (c : Currently) (sources : List (SourceCfg Params)) :
    (operation = .search →
      checkOperationRunnable operation c sources =
        if sources.isEmpty then (false, some "No search sources configured", 0)
        else (true, none, sources.length)) ∧
    (operation ≠ .search →
      checkOperationRunnable operation c sources =
        if specInputSum operation c = 0 then
          (false, some (stageReason operation), 0)
        else (true, none, specInputSum operation c)) := by
  constructor
  · rintro rfl
    rfl
  · intro hne
    cases operation <;>
      simp_all [checkOperationRunnable, specInputSum, stageReason]

/-- Witness for `check_operation_runnable_spec` at `operation = load`,
a snapshot with 3 records in `md_retrieved`, and no sources. -/
theorem check_operation_runnable_spec_witness :
    checkOperationRunnable .load { zeroCurrently with md_retrieved := 3 }
        ([] : List (SourceCfg (List (String × String)))) =
      if specInputSum .load { zeroCurrently with md_retrieved := 3 } = 0 then
        (false, some (stageReason .load), 0)
      else (true, none, specInputSum .load { zeroCurrently with md_retrieved := 3 }) := by
  have h := (check_operation_runnable_spec .load
    { zeroCurrently with md_retrieved := 3 }
    ([] : List (SourceCfg (List (String × String))))).2 (by decide)
  exact h

/-- C5: for every stage other than `search`, `_check_needs_rerun` answers
`true` exactly when the `affected_records` count computed by
`_check_operation_runnable` for the same stage and snapshot is positive: the
two functions agree on which input states feed each stage. -/
theorem check_needs_rerun_iff_affected_pos {Params : Type} [DecidableEq Params]
    (operation : Op) (c : Currently) (sources : List (SourceCfg Params))
    (fs : SourceCfg Params → HistoryState Params)
    (hne : operation ≠ .search) :
    (checkNeedsRerun operation c sources fs).1 = true ↔
      0 < (checkOperationRunnable operation c sources).2.2 := by
  cases operation <;>
    first
    | exact absurd rfl hne
    | · simp only [checkNeedsRerun, checkOperationRunnable, operationInputStates,
          stateCounts]
        split_ifs with h1 h2 <;> simp_all

/-- Witness for `check_needs_rerun_iff_affected_pos` at `operation = prep` and
a snapshot with one record needing manual preparation. -/
theorem check_needs_rerun_iff_affected_pos_witness :
    ((checkNeedsRerun .prep { zeroCurrently with md_needs_manual_preparation := 1 }
        ([] : List (SourceCfg (List (String × String))))
        (fun _ => .absent)).1 = true ↔
      0 < (checkOperationRunnable .prep
        { zeroCurrently with md_needs_manual_preparation := 1 }
        ([] : List (SourceCfg (List (String × String))))).2.2) := by
  exact check_needs_rerun_iff_affected_pos .prep
    { zeroCurrently with md_needs_manual_preparation := 1 }
    ([] : List (SourceCfg (List (String × String)))) (fun _ => .absent)
    (by decide)

/-- C2, counterexample: the staleness check does not always return one of the
four claimed outcomes.  For a source whose history file exists but cannot be
read (`json.JSONDecodeError` / `OSError`), `_check_source_staleness` returns a
fifth outcome, stale with reason "Unable to read search history". -/
theorem check_source_staleness_fifth_outcome :
    checkSourceStaleness src0 .unreadable =
        (true, some "Unable to read search history") ∧
      checkSourceStaleness src0 .unreadable ≠ (true, some "Search has not been run") ∧
      checkSourceStaleness src0 .unreadable ≠ (true, some "Search query changed") ∧
      checkSourceStaleness src0 .unreadable ≠ (true, some "Search parameters changed") ∧
      checkSourceStaleness src0 .unreadable ≠ (false, none) := by
  refine ⟨rfl, ?_, ?_, ?_, ?_⟩ <;> decide

/-- C2, amended: for every source and snapshot state, the staleness check
returns exactly one of five outcomes, characterised in priority order: absent
snapshot → stale "Search has not been run"; unreadable snapshot → stale
"Unable to read search history"; changed query → stale "Search query
changed"; changed parameter mapping → stale "Search parameters changed";
otherwise not stale with no reason. -/
theorem check_source_staleness_cases {Params : Type} [DecidableEq Params]
    (source : SourceCfg Params) (h : HistoryState Params) :
    (checkSourceStaleness source h = (true, some "Search has not been run") ∨
      checkSourceStaleness source h = (true, some "Unable to read search history") ∨
      checkSourceStaleness source h = (true, some "Search query changed") ∨
      checkSourceStaleness source h = (true, some "Search parameters changed") ∨
      checkSourceStaleness source h = (false, none)) ∧
    (checkSourceStaleness source h = (true, some "Search has not been run") ↔
      h = .absent) ∧
    (checkSourceStaleness source h = (true, some "Unable to read search history") ↔
      h = .unreadable) ∧
    (checkSourceStaleness source h = (true, some "Search query changed") ↔
      ∃ hist, h = .parsed hist ∧
        source.search_string.getD "" ≠ hist.search_string.getD "") ∧
    (checkSourceStaleness source h = (true, some "Search parameters changed") ↔
      ∃ hist, h = .parsed hist ∧
        source.search_string.getD "" = hist.search_string.getD "" ∧
        source.search_parameters ≠ hist.search_parameters) ∧
    (checkSourceStaleness source h = (false, none) ↔
      ∃ hist, h = .parsed hist ∧
        source.search_string.getD "" = hist.search_string.getD "" ∧
        source.search_parameters = hist.search_parameters) := by
  cases h with
  | absent => simp [checkSourceStaleness]
  | unreadable => simp [checkSourceStaleness]
  | parsed hist =>
      simp only [checkSourceStaleness]
      split_ifs with hq hp <;>
        simp_all

/-- C3: writing a run-history snapshot always clears staleness.  For every
prior snapshot state, every source, and every optional explicit `run_date`,
`_save_source_history` followed by `_check_source_staleness` on the same
unchanged source yields `(False, None)`: the snapshot echoes the source's
current configuration (minus `search_history_path`) plus a `last_run`
timestamp, so neither comparison can fire. -/
theorem save_history_clears_staleness {Params : Type} [DecidableEq Params]
    (prior : HistoryState Params) (source : SourceCfg Params)
    (run_date : Option String) (now : String) :
    checkSourceStaleness source (saveSourceHistory prior source run_date now) =
      (false, none) := by
  simp [checkSourceStaleness, saveSourceHistory, mkHistory]

theorem assocGet_assocSet_self {α : Type} (l : List (String × α)) (k : String) (v : α) :
    assocGet (assocSet l k v) k = some v := by
  induction l with
  | nil => simp [assocGet, assocSet]
  | cons kv rest ih =>
      by_cases h : kv.1 = k <;> simp [assocGet, assocSet, h, ih]

theorem noteCodes_empty : noteCodes "" = [] := by decide

theorem updateField_status (r : PyRecord) (k v s : String) :
    (updateField r k v s).status = r.status := rfl

/-- Membership characterisation of the defect report. -/
theorem mem_extractDefects (r : PyRecord) (p : String × List String) :
    p ∈ extractDefects r ↔
      ∃ fp ∈ r.mdProv, noteCodes fp.2.note ≠ [] ∧ p = (fp.1, noteCodes fp.2.note) := by
  unfold extractDefects
  rw [List.mem_filterMap]
  constructor
  · rintro ⟨fp, hmem, hf⟩
    by_cases hn : fp.2.note = ""
    · rw [if_neg (not_not_intro hn)] at hf
      cases hf
    · rw [if_pos hn] at hf
      by_cases hcs : noteCodes fp.2.note = []
      · rw [if_neg (not_not_intro hcs)] at hf
        cases hf
      · rw [if_pos hcs] at hf
        refine ⟨fp, hmem, hcs, ?_⟩
        injection hf with h
        exact h.symm
  · rintro ⟨fp, hmem, hcs, rfl⟩
    refine ⟨fp, hmem, ?_⟩
    have hn : fp.2.note ≠ "" := by
      intro he
      rw [he, noteCodes_empty] at hcs
      exact hcs rfl
    rw [if_pos hn, if_pos hcs]

/-- The manual-prep gate and the defect report agree: the record has a fatal
quality defect exactly when `_extract_defects` reports at least one field. -/
theorem hasFatal_iff_extractDefects_ne_nil (r : PyRecord) :
    hasFatalQualityDefects r = true ↔ extractDefects r ≠ [] := by
  unfold hasFatalQualityDefects extractDefects
  rw [List.any_eq_true, Ne, List.filterMap_eq_nil_iff]
  push_neg
  constructor
  · rintro ⟨fp, hmem, h⟩
    refine ⟨fp, hmem, ?_⟩
    have hc : noteCodes fp.2.note ≠ [] := by
      simpa [List.isEmpty_iff] using h
    have hn : fp.2.note ≠ "" := by
      intro he
      rw [he, noteCodes_empty] at hc
      exact hc rfl
    simp [hn, hc]
  · rintro ⟨fp, hmem, h⟩
    refine ⟨fp, hmem, ?_⟩
    by_cases hn : fp.2.note = ""
    · simp [hn] at h
    · by_cases hc : noteCodes fp.2.note = []
      · simp [hn, hc] at h
      · simpa [List.isEmpty_iff] using hc

/-- Codes reported by `_extract_defects` are never `IGNORE:`-prefixed. -/
theorem extractDefects_no_ignore (r : PyRecord) :
    ∀ p ∈ extractDefects r, ∀ c ∈ p.2, pyStartsWith c "IGNORE:" = false := by
  intro p hp c hc
  rw [mem_extractDefects] at hp
  obtain ⟨fp, _, _, rfl⟩ := hp
  replace hc : c ∈ noteCodes fp.2.note := hc
  unfold noteCodes at hc
  rw [List.mem_filter] at hc
  have h2 := hc.2
  rw [Bool.and_eq_true] at h2
  simpa using h2.2

/-- The tracked prep-man update loop never touches the record status. -/
theorem applyPrepManUpdates_status (r : PyRecord) (updates : List (String × String)) :
    (applyPrepManUpdates r updates).status = r.status := by
  induction updates generalizing r with
  | nil => rfl
  | cons kv rest ih =>
      by_cases h : kv.1 = ENTRYTYPE_KEY
      · simp only [applyPrepManUpdates, if_pos h]
        rw [ih]
      · simp only [applyPrepManUpdates, if_neg h]
        rw [ih, updateField_status]

/-- C6: for a record in `md_needs_manual_preparation` updated through the
manual-preparation path, if after the field updates some field's
masterdata-provenance note still contains a defect code not prefixed
`IGNORE:`, the status stays `md_needs_manual_preparation` and the response
lists the remaining defective fields with their codes, none of which is
`IGNORE:`-prefixed; otherwise the record transitions to `md_prepared`. -/
theorem prep_man_update_gate (store : RecordsDict) (record_id : String)
    (r : PyRecord) (updates : List (String × String))
    (hid : record_id ≠ "")
    (hprot : updates.any (fun kv => protectedFields.contains kv.1) = false)
    (hne : updates ≠ [])
    (hex : assocGet store record_id = some r)
    (hst : r.status = .md_needs_manual_preparation) :
    (hasFatalQualityDefects (applyPrepManUpdates r updates) = true →
      (prepManUpdateRecord store record_id updates).2.2 =
          .ok ⟨.md_needs_manual_preparation, extractDefects (applyPrepManUpdates r updates)⟩ ∧
        (assocGet (prepManUpdateRecord store record_id updates).1 record_id).map
            PyRecord.status = some .md_needs_manual_preparation ∧
        extractDefects (applyPrepManUpdates r updates) ≠ [] ∧
        (∀ p ∈ extractDefects (applyPrepManUpdates r updates), ∀ c ∈ p.2,
          pyStartsWith c "IGNORE:" = false)) ∧
    (hasFatalQualityDefects (applyPrepManUpdates r updates) = false →
      (prepManUpdateRecord store record_id updates).2.2 = .ok ⟨.md_prepared, []⟩ ∧
        (assocGet (prepManUpdateRecord store record_id updates).1 record_id).map
            PyRecord.status = some .md_prepared) := by
  have hempty : updates.isEmpty = false := by
    cases updates with
    | nil => exact absurd rfl hne
    | cons a l => rfl
  constructor
  · intro hfatal
    have hout : prepManUpdateRecord store record_id updates =
        (assocSet store record_id (applyPrepManUpdates r updates),
         ["Manual prep (partial): " ++ record_id],
         .ok ⟨.md_needs_manual_preparation, extractDefects (applyPrepManUpdates r updates)⟩) := by
      unfold prepManUpdateRecord
      rw [if_neg hid, if_neg (by simp [hempty]), if_neg (by rw [hprot]; decide)]
      simp only [hex]
      rw [if_neg (by simp [hst]), hfatal]
      simp
    refine ⟨?_, ?_, (hasFatal_iff_extractDefects_ne_nil _).mp hfatal,
      extractDefects_no_ignore _⟩
    · rw [hout]
    · rw [hout]
      simp [assocGet_assocSet_self, applyPrepManUpdates_status, hst]
  · intro hok
    have hout : prepManUpdateRecord store record_id updates =
        (assocSet store record_id (prepManSetData (applyPrepManUpdates r updates)),
         ["Manual prep: " ++ record_id ++ " → md_prepared"],
         .ok ⟨.md_prepared, []⟩) := by
      unfold prepManUpdateRecord
      rw [if_neg hid, if_neg (by simp [hempty]), if_neg (by rw [hprot]; decide)]
      simp only [hex]
      rw [if_neg (by simp [hst]), hok]
      simp
    refine ⟨by rw [hout], ?_⟩
    rw [hout]
    simp [assocGet_assocSet_self, prepManSetData]

/-- Witness for `prep_man_update_gate`: fixing only the title of a record with
defective title and author leaves it in `md_needs_manual_preparation`. -/
theorem prep_man_update_gate_witness :
    (prepManUpdateRecord demoStore "r1" [("title", "A Proper Title")]).2.2 =
      .ok ⟨.md_needs_manual_preparation,
        extractDefects (applyPrepManUpdates rDefective [("title", "A Proper Title")])⟩ := by
  have h := prep_man_update_gate demoStore "r1" rDefective [("title", "A Proper Title")]
    (by decide) (by decide) (by decide) (by decide) (by decide)
  exact (h.1 (by decide)).1

/-- C7: any field-update request containing a protected key (`id`, `origin`,
`masterdata_provenance`, `data_provenance`) fails with the protected-field
error on both the generic path (`update_record`) and the manual-preparation
path (`prep_man_update_record`), before any field is written: the store is
returned unchanged and no commit is created. -/
theorem protected_field_update_rejected (store : RecordsDict) (record_id : String)
    (r : PyRecord) (updates : List (String × String))
    (hid : record_id ≠ "")
    (hex : assocGet store record_id = some r)
    (hprot : updates.any (fun kv => protectedFields.contains kv.1) = true) :
    updateRecord store record_id updates = (store, [], .error .ProtectedFieldError) ∧
    prepManUpdateRecord store record_id updates =
      (store, [], .error .ProtectedFieldError) := by
  have hne : updates ≠ [] := by
    rintro rfl
    simp at hprot
  have hempty : updates.isEmpty = false := by
    cases updates with
    | nil => exact absurd rfl hne
    | cons a l => rfl
  constructor
  · unfold updateRecord
    rw [if_neg hid, if_neg (by simp [hempty])]
    simp only [hex]
    rw [if_pos hprot]
  · unfold prepManUpdateRecord
    rw [if_neg hid, if_neg (by simp [hempty]), if_pos hprot]

/-- Witness for `protected_field_update_rejected`: attempting to overwrite
`origin` on the demo record is rejected on both paths, store unchanged. -/
theorem protected_field_update_rejected_witness :
    updateRecord demoStore "r1" [("origin", "tampered")] =
        (demoStore, [], .error .ProtectedFieldError) ∧
      prepManUpdateRecord demoStore "r1" [("origin", "tampered")] =
        (demoStore, [], .error .ProtectedFieldError) := by
  exact protected_field_update_rejected demoStore "r1" rDefective
    [("origin", "tampered")] (by decide) (by decide) (by decide)

/-- C8: for a record in `pdf_needs_manual_retrieval`, "mark not available"
succeeds and sets the status to `pdf_not_available`; a second call on the now
transitioned record fails with the invalid-transition error (the source makes
the already-current state an error, not a success-as-no-op), leaving the
store unchanged. -/
theorem mark_pdf_not_available_then_again (store : RecordsDict) (record_id : String)
    (r : PyRecord)
    (hid : record_id ≠ "")
    (hex : assocGet store record_id = some r)
    (hst : r.status = .pdf_needs_manual_retrieval) :
    (markPdfNotAvailable store record_id).2.2 = .ok .pdf_not_available ∧
    (assocGet (markPdfNotAvailable store record_id).1 record_id).map PyRecord.status =
      some .pdf_not_available ∧
    (markPdfNotAvailable (markPdfNotAvailable store record_id).1 record_id).2.2 =
      .error (.InvalidTransition record_id) ∧
    (markPdfNotAvailable (markPdfNotAvailable store record_id).1 record_id).1 =
      (markPdfNotAvailable store record_id).1 := by
  have hout : markPdfNotAvailable store record_id =
      (assocSet store record_id (pdfGetManMarkNotAvailable r),
       ["Mark PDF not available for " ++ record_id],
       .ok (pdfGetManMarkNotAvailable r).status) := by
    unfold markPdfNotAvailable
    rw [if_neg hid]
    simp only [hex]
    rw [if_neg (by simp [hst])]
  have hsecond : markPdfNotAvailable
      (assocSet store record_id (pdfGetManMarkNotAvailable r)) record_id =
      (assocSet store record_id (pdfGetManMarkNotAvailable r), [],
       .error (.InvalidTransition record_id)) := by
    unfold markPdfNotAvailable
    rw [if_neg hid]
    simp only [assocGet_assocSet_self]
    rw [if_pos (by simp [pdfGetManMarkNotAvailable])]
  refine ⟨?_, ?_, ?_, ?_⟩
  · rw [hout]
    rfl
  · rw [hout]
    simp [assocGet_assocSet_self, pdfGetManMarkNotAvailable]
  · simp only [hout]
    rw [hsecond]
  · simp only [hout]
    rw [hsecond]

/-- Witness for `mark_pdf_not_available_then_again` on the concrete store
`pdfStore`. -/
theorem mark_pdf_not_available_then_again_witness :
    (markPdfNotAvailable pdfStore "r2").2.2 = .ok .pdf_not_available ∧
    (assocGet (markPdfNotAvailable pdfStore "r2").1 "r2").map PyRecord.status =
      some .pdf_not_available ∧
    (markPdfNotAvailable (markPdfNotAvailable pdfStore "r2").1 "r2").2.2 =
      .error (.InvalidTransition "r2") ∧
    (markPdfNotAvailable (markPdfNotAvailable pdfStore "r2").1 "r2").1 =
      (markPdfNotAvailable pdfStore "r2").1 := by
  exact mark_pdf_not_available_then_again pdfStore "r2" rPdfWaiting
    (by decide) (by decide) (by decide)

theorem batchEnrichStep_eq (store : RecordsDict) (oracle : EnrichOracle)
    (acc : BatchAcc) (record_id : String) :
    batchEnrichStep store oracle acc record_id =
      { enriched_count := acc.enriched_count +
          (if itemEnriched (classifyItem store oracle record_id) then 1 else 0)
        failed_count := acc.failed_count +
          (if itemFailed (classifyItem store oracle record_id) then 1 else 0)
        results := acc.results ++ [classifyItem store oracle record_id]
        records_to_save := saveStep store oracle acc.records_to_save record_id } := by
  cases hget : assocGet store record_id with
  | none =>
      have hclass : classifyItem store oracle record_id = .notFound record_id := by
        unfold classifyItem
        rw [hget]
      unfold batchEnrichStep
      rw [hget]
      simp [hclass, saveStep, itemFailed, itemEnriched]
  | some r =>
      by_cases ha : hasAbstract r = true
      · have hclass : classifyItem store oracle record_id =
            .alreadyHasAbstract record_id := by
          unfold classifyItem
          rw [hget]
          simp [ha]
        unfold batchEnrichStep
        rw [hget]
        simp [ha, hclass, saveStep, itemFailed, itemEnriched]
      · rw [Bool.not_eq_true] at ha
        cases horacle : oracle r with
        | error msg =>
            have hclass : classifyItem store oracle record_id =
                .errored record_id msg := by
              unfold classifyItem
              rw [hget]
              simp [ha, horacle]
            unfold batchEnrichStep
            rw [hget]
            simp [ha, horacle, hclass, saveStep, itemFailed, itemEnriched]
        | ok res =>
            have hclass : classifyItem store oracle record_id =
                .processed record_id res.success res.enriched_fields res.source
                  res.record_data := by
              unfold classifyItem
              rw [hget]
              simp [ha, horacle]
            unfold batchEnrichStep
            rw [hget]
            by_cases hs : res.success = true
            · simp [ha, horacle, hs, hclass, saveStep, itemFailed, itemEnriched]
            · rw [Bool.not_eq_true] at hs
              simp [ha, horacle, hs, hclass, saveStep, itemFailed, itemEnriched]

/-- Decomposition of the batch loop: every component of the accumulator is a
pointwise function of the individual ids. -/
theorem batchEnrich_foldl (store : RecordsDict) (oracle : EnrichOracle)
    (ids : List String) : ∀ acc : BatchAcc,
    ids.foldl (batchEnrichStep store oracle) acc =
      { enriched_count := acc.enriched_count +
          ((ids.map (classifyItem store oracle)).countP itemEnriched)
        failed_count := acc.failed_count +
          ((ids.map (classifyItem store oracle)).countP itemFailed)
        results := acc.results ++ ids.map (classifyItem store oracle)
        records_to_save := ids.foldl (saveStep store oracle) acc.records_to_save } := by
  induction ids with
  | nil =>
      intro acc
      simp
  | cons i rest ih =>
      intro acc
      rw [List.foldl_cons, List.foldl_cons, batchEnrichStep_eq, ih]
      simp only [List.map_cons, List.countP_cons, List.append_assoc,
        List.singleton_append, BatchAcc.mk.injEq]
      exact ⟨by omega, by omega, trivial, trivial⟩

theorem itemFailed_eq_or (i : ItemResult) :
    itemFailed i = (isNotFoundItem i || isErroredItem i) := by
  cases i <;> rfl

theorem isNotFoundItem_classify (store : RecordsDict) (oracle : EnrichOracle)
    (record_id : String) :
    isNotFoundItem (classifyItem store oracle record_id) =
      (assocGet store record_id).isNone := by
  unfold classifyItem
  cases hget : assocGet store record_id with
  | none => rfl
  | some r =>
      by_cases ha : hasAbstract r = true
      · simp [ha, isNotFoundItem]
      · rw [Bool.not_eq_true] at ha
        cases horacle : oracle r <;> simp [ha, horacle, isNotFoundItem]

theorem itemEnriched_classify_isSome (store : RecordsDict) (oracle : EnrichOracle)
    (record_id : String) :
    itemEnriched (classifyItem store oracle record_id) = true →
      (assocGet store record_id).isSome = true := by
  unfold classifyItem
  cases hget : assocGet store record_id with
  | none => simp [itemEnriched]
  | some r => simp

theorem countP_or_disjoint {α : Type} (l : List α) (p q : α → Bool)
    (hdisj : ∀ x ∈ l, ¬(p x = true ∧ q x = true)) :
    l.countP (fun x => p x || q x) = l.countP p + l.countP q := by
  induction l with
  | nil => simp
  | cons a rest ih =>
      have hd := hdisj a (List.mem_cons_self a rest)
      have ih' := ih (fun x hx => hdisj x (List.mem_cons_of_mem a hx))
      simp only [List.countP_cons, ih']
      by_cases hp : p a = true <;> by_cases hq : q a = true <;>
        simp [hp, hq] at hd ⊢ <;> omega

theorem mem_map_fst_assocSet {α : Type} (l : List (String × α)) (k a : String)
    (v : α) :
    a ∈ (assocSet l k v).map Prod.fst ↔ a = k ∨ a ∈ l.map Prod.fst := by
  induction l with
  | nil => simp [assocSet]
  | cons kv rest ih =>
      by_cases h : kv.1 = k
      · rw [assocSet, if_pos h]
        simp [← h]
      · rw [assocSet, if_neg h]
        simp only [List.map_cons, List.mem_cons, ih]
        tauto

theorem mem_keys_foldl_saveStep (store : RecordsDict) (oracle : EnrichOracle)
    (ids : List String) : ∀ (l : List (String × PyRecord)) (a : String),
    a ∈ (ids.foldl (saveStep store oracle) l).map Prod.fst →
      a ∈ l.map Prod.fst ∨
        (a ∈ ids ∧ itemEnriched (classifyItem store oracle a) = true) := by
  induction ids with
  | nil =>
      intro l a h
      exact .inl h
  | cons i rest ih =>
      intro l a h
      rw [List.foldl_cons] at h
      rcases ih (saveStep store oracle l i) a h with h' | h'
      · unfold saveStep at h'
        cases hc : classifyItem store oracle i with
        | processed id s fs src d =>
            simp only [hc] at h'
            by_cases hs : s = true
            · rw [if_pos hs] at h'
              rcases (mem_map_fst_assocSet l i a d).mp h' with rfl | hmem
              · refine .inr ⟨List.mem_cons_self _ _, ?_⟩
                rw [hc]
                simpa [itemEnriched] using hs
              · exact .inl hmem
            · rw [Bool.not_eq_true] at hs
              rw [if_neg (by simp [hs])] at h'
              exact .inl h'
        | notFound id =>
            simp only [hc] at h'
            exact .inl h'
        | alreadyHasAbstract id =>
            simp only [hc] at h'
            exact .inl h'
        | errored id msg =>
            simp only [hc] at h'
            exact .inl h'
      · exact .inr ⟨List.mem_cons_of_mem _ h'.1, h'.2⟩

/-- C9: a batch-enrichment request over a list of ids in which some ids are
missing completes without aborting: the results list has one entry per id,
each entry depends only on that id's record and enrichment outcome
(independence), `failed_count` is the number of missing ids plus the number of
per-item exceptions, `enriched_count` counts only records actually enriched
(bounded by the number of existing ids), each missing id produces a
"Record not found" error entry, and only successfully enriched records are
saved (partially, without touching the others). -/
theorem batch_enrich_records_spec (ids : List String) (store : RecordsDict)
    (oracle : EnrichOracle) (hne : ids ≠ []) :
    ∃ acc store',
      batchEnrichRecords ids store oracle = .ok (acc, store') ∧
      acc.results = ids.map (classifyItem store oracle) ∧
      acc.results.length = ids.length ∧
      acc.failed_count =
        ids.countP (fun i => (assocGet store i).isNone) +
          (ids.map (classifyItem store oracle)).countP isErroredItem ∧
      acc.enriched_count = (ids.map (classifyItem store oracle)).countP itemEnriched ∧
      acc.enriched_count ≤ ids.countP (fun i => (assocGet store i).isSome) ∧
      (∀ i ∈ ids, assocGet store i = none →
        classifyItem store oracle i = .notFound i) ∧
      (∀ i ∈ acc.records_to_save.map Prod.fst,
        i ∈ ids ∧ itemEnriched (classifyItem store oracle i) = true) ∧
      store' = saveRecordsDict store acc.records_to_save := by
  have hempty : ids.isEmpty = false := by
    cases ids with
    | nil => exact absurd rfl hne
    | cons a l => rfl
  have hfold := batchEnrich_foldl store oracle ids ⟨0, 0, [], []⟩
  refine ⟨ids.foldl (batchEnrichStep store oracle) ⟨0, 0, [], []⟩,
    saveRecordsDict store
      (ids.foldl (batchEnrichStep store oracle) ⟨0, 0, [], []⟩).records_to_save,
    ?_, ?_, ?_, ?_, ?_, ?_, ?_, ?_, rfl⟩
  · unfold batchEnrichRecords
    rw [if_neg (by simp [hempty])]
  · rw [hfold]
    simp
  · rw [hfold]
    simp
  · rw [hfold]
    simp only
    rw [Nat.zero_add]
    have h1 : (ids.map (classifyItem store oracle)).countP itemFailed =
        (ids.map (classifyItem store oracle)).countP
          (fun i => isNotFoundItem i || isErroredItem i) := by
      apply List.countP_congr
      intro i _
      rw [itemFailed_eq_or]
    rw [h1, countP_or_disjoint _ _ _ (by intro x _ hx; cases x <;> simp_all [isNotFoundItem, isErroredItem])]
    congr 1
    rw [List.countP_map]
    apply List.countP_congr
    intro i _
    simp only [Function.comp_apply, isNotFoundItem_classify]
  · rw [hfold]
    simp
  · rw [hfold]
    simp only [Nat.zero_add]
    rw [List.countP_map]
    apply List.countP_mono_left
    intro i _
    simp only [Function.comp_apply]
    exact fun h => itemEnriched_classify_isSome store oracle i h
  · intro i _ hmiss
    unfold classifyItem
    rw [hmiss]
  · intro i hmem
    rw [hfold] at hmem
    rcases mem_keys_foldl_saveStep store oracle ids [] i hmem with h | h
    · simp at h
    · exact h

/-- Witness for `batch_enrich_records_spec`: enriching three ids of which one
is missing reports `failed_count = 1` and `enriched_count ≤ 2`. -/
theorem batch_enrich_records_spec_witness :
    ∃ acc store',
      batchEnrichRecords ["a", "b", "missing"] enrichStore okOracle =
          .ok (acc, store') ∧
        acc.failed_count = 1 ∧ acc.enriched_count ≤ 2 := by
  obtain ⟨acc, store', h1, _, _, h4, _, h6, _, _, _⟩ :=
    batch_enrich_records_spec ["a", "b", "missing"] enrichStore okOracle (by decide)
  refine ⟨acc, store', h1, ?_, ?_⟩
  · rw [h4]
    decide
  · exact le_trans h6 (by decide)

theorem splitCharAux_no_sep (sep : Char) (l : List Char)
    (h : ∀ c ∈ l, c ≠ sep) : ∀ acc, splitCharAux sep l acc = [acc.reverse ++ l] := by
  induction l with
  | nil =>
      intro acc
      simp [splitCharAux]
  | cons c cs ih =>
      intro acc
      have hc : c ≠ sep := h c (List.mem_cons_self _ _)
      rw [splitCharAux, if_neg hc, ih (fun x hx => h x (List.mem_cons_of_mem _ hx))]
      simp

theorem pathComponents_single (s : String) (hne : s ≠ "")
    (hdot : s ≠ ".") (hnoslash : ∀ c ∈ s.data, c ≠ '/') :
    pathComponents s = [s] := by
  unfold pathComponents
  rw [splitCharAux_no_sep _ _ hnoslash]
  have h1 : (String.mk s.data) = s := rfl
  have h2 : (s == "") = false := beq_eq_false_iff_ne.mpr hne
  have h3 : (s == ".") = false := beq_eq_false_iff_ne.mpr hdot
  simp [h1, h2, h3]

theorem pyStartsWith_slash_eq_false (s : String) (hne : s ≠ "")
    (hnoslash : ∀ c ∈ s.data, c ≠ '/') : pyStartsWith s "/" = false := by
  unfold pyStartsWith
  cases hd : s.data with
  | nil =>
      exfalso
      apply hne
      cases s with
      | mk d =>
          have hdd : d = [] := hd
          rw [hdd]
  | cons c cs =>
      have hc : c ≠ '/' := hnoslash c (by rw [hd]; exact List.mem_cons_self _ _)
      have hb : ('/' == c) = false := beq_eq_false_iff_ne.mpr (fun h => hc h.symm)
      show List.isPrefixOf ("/").data (c :: cs) = false
      have hslashdata : ("/").data = ['/'] := rfl
      rw [hslashdata]
      simp [List.isPrefixOf, hb]

theorem resolveComponents_append_single (l : List String) (c : String)
    (h : c ≠ "..") : resolveComponents (l ++ [c]) = resolveComponents l ++ [c] := by
  unfold resolveComponents
  rw [List.foldl_append]
  simp [h]

theorem sanitizeProjectId_ok (isalnum : Char → Bool) (pid s : String)
    (h : sanitizeProjectId isalnum pid = .ok s) :
    s = String.mk (pid.data.filter (keepChar isalnum)) ∧ s ≠ "" := by
  unfold sanitizeProjectId at h
  by_cases h1 : pid = ""
  · rw [if_pos h1] at h
    cases h
  · rw [if_neg h1] at h
    by_cases h2 : String.mk (pid.data.filter (keepChar isalnum)) = ""
    · rw [if_pos h2] at h
      cases h
    · rw [if_neg h2] at h
      injection h with h3
      exact ⟨h3.symm, h3 ▸ h2⟩

theorem keepChar_ne_slash (isalnum : Char → Bool) (hslash : isalnum '/' = false)
    (c : Char) (hc : keepChar isalnum c = true) : c ≠ '/' := by
  intro heq
  subst heq
  unfold keepChar at hc
  rw [hslash] at hc
  exact absurd hc (by decide)

theorem keepChar_ne_dot (isalnum : Char → Bool) (hdot : isalnum '.' = false)
    (c : Char) (hc : keepChar isalnum c = true) : c ≠ '.' := by
  intro heq
  subst heq
  unfold keepChar at hc
  rw [hdot] at hc
  exact absurd hc (by decide)

/-- C10: project-path resolution.  A missing or empty `project_id` and one
whose sanitization is empty are rejected; a successful resolution is always
`resolve(base) ++ [s]` for the sanitized id `s`, which is nonempty and
contains only alphanumeric characters, hyphens, and underscores — so the
resolved project directory is an immediate child of the base path, and no
`project_id` (e.g. one containing '/' or "..") can resolve outside it. -/
theorem validate_project_path_confines (isalnum : Char → Bool)
    (hslash : isalnum '/' = false) (hdot : isalnum '.' = false)
    (params : PathParams) :
    (params.project_id = none →
      validateProjectPath isalnum params = .error "project_id is required") ∧
    (params.project_id = some "" →
      validateProjectPath isalnum params = .error "project_id is required") ∧
    (∀ pid, params.project_id = some pid → pid ≠ "" →
      pid.data.filter (keepChar isalnum) = [] →
      validateProjectPath isalnum params =
        .error "project_id must contain alphanumeric characters") ∧
    (∀ p, validateProjectPath isalnum params = .ok p →
      ∃ s, s ≠ "" ∧ (∀ c ∈ s.data, keepChar isalnum c = true) ∧
        p = resolveComponents
              (pathComponents ((params.base_path).getD "./projects")) ++ [s]) := by
  cases hpid : params.project_id with
  | none =>
      refine ⟨fun _ => ?_, fun h => ?_, fun pid h => ?_, fun p h => ?_⟩
      · unfold validateProjectPath
        rw [hpid]
      · cases h
      · cases h
      · unfold validateProjectPath at h
        rw [hpid] at h
        cases h
  | some pid =>
      refine ⟨fun h => ?_, fun h => ?_, fun pid' h hne hfil => ?_, fun p h => ?_⟩
      · cases h
      · injection h with h'
        simp only [validateProjectPath, hpid]
        rw [if_pos h']
      · injection h with h'
        subst h'
        simp only [validateProjectPath, sanitizeProjectId, hpid]
        rw [if_neg hne]
        rw [if_pos (show String.mk (pid.data.filter (keepChar isalnum)) = "" by rw [hfil])]
        rw [if_neg hne]
      · simp only [validateProjectPath, hpid] at h
        by_cases hne : pid = ""
        · rw [if_pos hne] at h
          cases h
        · rw [if_neg hne] at h
          cases hsan : sanitizeProjectId isalnum pid with
          | error e =>
              rw [hsan] at h
              cases h
          | ok s =>
              rw [hsan] at h
              obtain ⟨hs, hsne⟩ := sanitizeProjectId_ok isalnum pid s hsan
              have hchars : ∀ c ∈ s.data, keepChar isalnum c = true := by
                intro c hcm
                rw [hs] at hcm
                exact (List.mem_filter.mp hcm).2
              have hnoslash : ∀ c ∈ s.data, c ≠ '/' :=
                fun c hcm => keepChar_ne_slash isalnum hslash c (hchars c hcm)
              have hnodot : ∀ c ∈ s.data, c ≠ '.' :=
                fun c hcm => keepChar_ne_dot isalnum hdot c (hchars c hcm)
              have hsdot : s ≠ "." := by
                intro heq
                exact hnodot '.' (by rw [heq]; decide) rfl
              have hsdotdot : s ≠ ".." := by
                intro heq
                exact hnodot '.' (by rw [heq]; decide) rfl
              have hjoin : pathJoin
                  (pathComponents ((params.base_path).getD "./projects")) s =
                  pathComponents ((params.base_path).getD "./projects") ++ [s] := by
                unfold pathJoin
                rw [pyStartsWith_slash_eq_false s hsne hnoslash]
                rw [pathComponents_single s hsne hsdot hnoslash]
                simp
              refine ⟨s, hsne, hchars, ?_⟩
              injection h with h'
              rw [← h', hjoin, resolveComponents_append_single _ _ hsdotdot]

/-- Witness for `validate_project_path_confines`: with Python-style
alphanumerics, the traversal attempt "../evil-project" sanitizes to
"evil-project" and resolves to an immediate child of the default base. -/
theorem validate_project_path_confines_witness :
    ∃ s, s ≠ "" ∧ (∀ c ∈ s.data, keepChar Char.isAlphanum c = true) ∧
      (["projects", "evil-project"] : List String) =
        resolveComponents (pathComponents "./projects") ++ [s] := by
  have h := (validate_project_path_confines Char.isAlphanum (by decide) (by decide)
    ⟨some "../evil-project", none⟩).2.2.2
  exact h ["projects", "evil-project"] rfl

end Colrev
